import Mathlib

/-
Verification of MassDisposer (src/MassDisposer.py), a linear batch script:
authenticate against an asset-management REST API, read asset records from a
CSV, and for each asset issue a status-update PATCH followed (on success) by a
feed/comment POST.

Shallow embedding: Python dict values are modelled by `Json`; a mapping (dict)
is an insertion-ordered association list `PyDict`.  File access and HTTP
responses are inputs of the model (`Except`-valued file reads, an
`AuthResponse`, and per-call success oracles), and the observable behaviour of
`main` is the list of events (HTTP calls, fatal exits, sleeps) it emits.
Python mutation of the per-iteration payload copy is modelled by a small heap
of dict objects, so that aliasing claims about `deepcopy` are expressible.
-/

/-- JSON values (results of `json.load` and the payload field values). -/
inductive Json where
  | null : Json
  | bool (b : Bool) : Json
  | num (n : Int) : Json
  | str (s : String) : Json
  | arr (elems : List Json) : Json
  | obj (fields : List (String × Json)) : Json
deriving Repr

/-- Python dict with string keys, as an insertion-ordered association list. -/
abbrev PyDict := List (String × Json)

/-- Python `d[k] = v` on a dict: overwrite in place if the key is present
(keeping its position), otherwise append the new key at the end. -/
def dictSet (d : PyDict) (k : String) (v : Json) : PyDict :=
  if d.any (fun p => p.1 == k) then
    d.map (fun p => if p.1 == k then (k, v) else p)
  else
    d ++ [(k, v)]

/-- Characters Python's `str.strip()` removes by default (ASCII whitespace). -/
def isPySpace (c : Char) : Bool :=
  c == ' ' || c == '\t' || c == '\n' || c == '\r' || c == '\x0b' || c == '\x0c'

/-- Python `s.strip()`: drop leading and trailing whitespace. -/
def pyStrip (s : String) : String :=
  ⟨((s.toList.dropWhile isPySpace).reverse.dropWhile isPySpace).reverse⟩

/-- Python `s.upper()` (ASCII case mapping suffices for the sentinel). -/
def pyUpper (s : String) : String :=
  ⟨s.toList.map Char.toUpper⟩

/-- Quote character test, for Python `s.strip('"')`. -/
def isQuote (c : Char) : Bool := c == '"'

/-- Python `s.strip('"')` (line 32): drop ALL leading and ALL trailing quote
characters from the string. -/
def stripQuotes (s : String) : String :=
  ⟨((s.toList.dropWhile isQuote).reverse.dropWhile isQuote).reverse⟩

/-- Outcome of the HTTP POST to the auth endpoint, as seen by
`get_bearer_token`: a 2xx response with its body text, an HTTP-level error
(4xx/5xx, which `raise_for_status` turns into `requests.HTTPError`), or a
network error (`requests.ConnectionError` / `requests.Timeout`, raised by
`requests.post` itself). -/
inductive AuthResponse where
  | success (body : String) : AuthResponse
  | httpError (code : Nat) : AuthResponse
  | networkError : AuthResponse
deriving Repr, DecidableEq

/-- Exceptions of the `requests` library relevant here.  `httpError` is
`requests.HTTPError`; `networkError` stands for the other
`requests.RequestException` subclasses (connection errors, timeouts). -/
inductive ReqError where
  | httpError (code : Nat) : ReqError
  | networkError : ReqError
deriving Repr, DecidableEq

/-- Body of the `try:` block of `get_bearer_token` (lines 27-34): the POST
itself may raise a network error; `raise_for_status()` raises `HTTPError` on
4xx/5xx; otherwise the token is the body with quotes stripped. -/
def authAttempt : AuthResponse → Except ReqError String
  | .success body => .ok (stripQuotes body)
  | .httpError c => .error (.httpError c)
  | .networkError => .error .networkError

/-- Embedding of `get_bearer_token` (lines 25-37).  The function's only
handler is `except requests.HTTPError`, which falls through to `return None`;
any other exception escapes to the caller (`Except.error`). -/
def get_bearer_token (resp : AuthResponse) : Except ReqError (Option String) :=
  match authAttempt resp with
  | .ok t => .ok (some t)
  | .error (.httpError _) => .ok none
  | .error e => .error e

/-- A parsed CSV data row, as produced by `csv.DictReader`: header name to
cell string. -/
abbrev Row := List (String × String)

/-- Python `row.get(k, '')`: the cell under header `k`, or `""` if absent. -/
def rowGet (row : Row) (k : String) : String :=
  match row.find? (fun p => p.1 == k) with
  | some p => p.2
  | none => ""

/-- Ways opening/parsing the CSV can fail: `FileNotFoundError`, or any other
exception during reading (both are caught by `read_ids_from_csv`). -/
inductive CsvError where
  | fileNotFound : CsvError
  | otherError : CsvError
deriving Repr, DecidableEq

/-- An asset record appended by the reader: `{'ID': ..., 'SerialNumber': ...}`. -/
structure AssetRecord where
  ID : String
  SerialNumber : String
deriving Repr, DecidableEq

/-- Embedding of `read_ids_from_csv` (lines 40-65).  The input is the outcome
of opening and parsing the file: either an error (file missing or any other
exception — both handlers return the empty list) or the parsed data rows.
Each row's `ID` and `Serial Number` cells are stripped; a record is appended
only if both are non-empty and neither uppercases to the sentinel. -/
def read_ids_from_csv (input : Except CsvError (List Row)) : List AssetRecord :=
  match input with
  | .error _ => []
  | .ok rows =>
    rows.foldl
      (fun acc row =>
        let asset_id := pyStrip (rowGet row "ID")
        let serial_number := pyStrip (rowGet row "Serial Number")
        if !(asset_id == "") && !(serial_number == "")
            && !(pyUpper asset_id == "NOT FOUND IN ITSM")
            && !(pyUpper serial_number == "NOT FOUND IN ITSM") then
          acc ++ [⟨asset_id, serial_number⟩]
        else
          acc)
      []

/-- One JSON-Patch operation object, as appended at lines 89-93. -/
structure PatchOp where
  op : String
  path : String
  value : Json
deriving Repr

/-- The `patch_document` list built by `update_asset_status` (lines 87-93):
one `replace` operation per key of `update_data`, in iteration order,
accumulated by `append` exactly as the Python loop does. -/
def patch_document (update_data : PyDict) : List PatchOp :=
  update_data.foldl
    (fun acc kv => acc ++ [⟨"replace", "/" ++ kv.1, kv.2⟩])
    []

/-- The HTTP request assembled by `update_asset_status` before it is sent. -/
structure PatchRequest where
  url : String
  authorization : String
  contentType : String
  body : List PatchOp

/-- Request construction of `update_asset_status` (lines 82-102): URL
`{API_BASE_URL}/{app_id}/assets/{asset_id}`, headers
`Authorization: Bearer <token>` and `Content-Type: application/json`, body the
JSON-Patch document. -/
def update_asset_status_request (api_base_url app_id asset_id token : String)
    (update_data : PyDict) : PatchRequest :=
  { url := api_base_url ++ "/" ++ app_id ++ "/assets/" ++ asset_id
    authorization := "Bearer " ++ token
    contentType := "application/json"
    body := patch_document update_data }

/-- A heap of Python dict objects, for the mutation in the main loop
(`current_payload = deepcopy(status_update_payload)` then
`current_payload['serialNumber'] = serial_number`, lines 170-171).  Addresses
are allocated from a counter; template field values are immutable `Json`
trees, which is faithful because the script only ever mutates a top-level key
of the freshly copied dict. -/
structure Heap where
  objs : List (Nat × PyDict)
  next : Nat
deriving Repr

/-- Dict object stored at an address, if any. -/
def Heap.lookup (h : Heap) (a : Nat) : Option PyDict :=
  (h.objs.find? (fun p => p.1 == a)).map (fun p => p.2)

/-- Allocate a fresh dict object (used to model `deepcopy`, which builds a new
object graph sharing nothing with the original). -/
def Heap.alloc (h : Heap) (d : PyDict) : Nat × Heap :=
  (h.next, ⟨(h.next, d) :: h.objs, h.next + 1⟩)

/-- In-place update `obj[k] = v` of the dict object at address `a`. -/
def Heap.set (h : Heap) (a : Nat) (k : String) (v : Json) : Heap :=
  ⟨h.objs.map (fun p => if p.1 == a then (p.1, dictSet p.2 k v) else p), h.next⟩

/-- Every allocated address is below the allocation counter. -/
def Heap.wfB (h : Heap) : Bool :=
  h.objs.all (fun p => p.1 < h.next)

/-- Observable events of a run of `main`: HTTP calls, file reads, the fixed
sleeps, early exits, and an uncaught exception. -/
inductive Event where
  | authCall : Event
  | readCsv : Event
  | readStatusJson : Event
  | readCommentJson : Event
  | update (assetId : String) (payload : PyDict) (ok : Bool) : Event
  | feed (assetId : String) (comment : PyDict) (ok : Bool) : Event
  | sleep : Event
  | fatal (reason : String) : Event
  | warn : Event
  | exn : Event
deriving Repr

/-- Embedding of the per-asset loop of `main` (lines 164-180), with the heap
threaded through.  `i` is the 1-based index from `enumerate(..., 1)`; `total`
is `len(assets_to_process)`.  Each iteration reads the template object, deep-
copies it to a fresh address, sets `serialNumber` on the copy, issues the
update call with the copy's contents, and on update success sleeps and issues
the feed call; between records it sleeps once more. -/
def mainLoop (updOk feedOk : Nat → Bool) (tmplAddr : Nat) (comment : PyDict) :
    List AssetRecord → Nat → Nat → Heap → List Event × Heap
  | [], _, _, h => ([], h)
  | a :: rest, i, total, h =>
    let tmpl := (h.lookup tmplAddr).getD []
    let alloc1 := h.alloc tmpl
    let h2 := alloc1.2.set alloc1.1 "serialNumber" (Json.str a.SerialNumber)
    let payload := (h2.lookup alloc1.1).getD []
    let ok := updOk i
    let mids := if ok then [Event.sleep, Event.feed a.ID comment (feedOk i)] else []
    let tails := if i < total then [Event.sleep] else []
    let recres := mainLoop updOk feedOk tmplAddr comment rest (i + 1) total h2
    (Event.update a.ID payload ok :: (mids ++ tails ++ recres.1), recres.2)

/-- The five environment variables read at lines 18-22 (`os.getenv` yields
`None` when unset). -/
structure Env where
  appId : Option String
  authUrl : Option String
  apiBaseUrl : Option String
  account : Option String
  password : Option String

/-- Python truthiness of an `os.getenv` result: `None` and `""` are falsy. -/
def truthyOpt : Option String → Bool
  | none => false
  | some s => !(s == "")

/-- The `all([APP_ID, AUTH_URL, API_BASE_URL, USERNAME, PASSWORD])` check at
line 139. -/
def envOk (e : Env) : Bool :=
  truthyOpt e.appId && truthyOpt e.authUrl && truthyOpt e.apiBaseUrl
    && truthyOpt e.account && truthyOpt e.password

/-- Python truthiness of a `read_json_data` result used at line 158: `None`
(load failed) and the empty mapping `{}` are falsy. -/
def falsyPayload : Option PyDict → Bool
  | none => true
  | some d => d.isEmpty

/-- The external inputs a run of `main` consumes: the environment, the auth
response, the CSV read outcome, the two JSON template load results (`none`
models a missing/unparsable file), and per-index outcome oracles for the
PATCH and feed POST calls (indexed by the loop's 1-based counter). -/
structure World where
  env : Env
  authResp : AuthResponse
  csv : Except CsvError (List Row)
  statusJson : Option PyDict
  commentJson : Option PyDict
  updOk : Nat → Bool
  feedOk : Nat → Bool

/-- Embedding of `main` (lines 136-182) as the event trace of a run (named `mainTrace` because Lean reserves `main` for executable entry points): check the
environment, authenticate (an uncaught exception from `get_bearer_token` ends
the run with `exn`; a falsy token returns), read the CSV (empty result
returns), load the two JSON templates (falsy either returns), then run the
per-asset loop on a heap holding the status template. -/
def mainTrace (w : World) : List Event :=
  if !(envOk w.env) then [.fatal "env"]
  else
    Event.authCall ::
    match get_bearer_token w.authResp with
    | .error _ => [.exn]
    | .ok none => [.fatal "auth"]
    | .ok (some t) =>
      if t == "" then [.fatal "auth"]
      else
        Event.readCsv ::
        let assets := read_ids_from_csv w.csv
        if assets.isEmpty then [.warn]
        else
          Event.readStatusJson :: Event.readCommentJson ::
          if falsyPayload w.statusJson || falsyPayload w.commentJson then
            [.fatal "json"]
          else
            let h0 : Heap := ⟨[], 0⟩
            let alloc0 := h0.alloc (w.statusJson.getD [])
            (mainLoop w.updOk w.feedOk alloc0.1 (w.commentJson.getD [])
              assets 1 assets.length alloc0.2).1

/-! Helper lemmas about folds that accumulate by appending, as the Python
loops in `read_ids_from_csv` and `update_asset_status` do. -/

/-- A fold that conditionally appends one element per input is filter-then-map. -/
theorem foldl_append_if_eq {α β : Type} (p : α → Bool) (f : α → β) :
    ∀ (l : List α) (acc : List β),
      l.foldl (fun acc x => if p x then acc ++ [f x] else acc) acc
        = acc ++ (l.filter p).map f := by
  intro l
  induction l with
  | nil => intro acc; simp
  | cons x xs ih =>
    intro acc
    simp only [List.foldl_cons, List.filter_cons]
    by_cases h : p x
    · simp [h, ih, List.append_assoc]
    · simp [h, ih]

/-- A fold that appends one element per input is a map. -/
theorem foldl_append_eq_map {α β : Type} (f : α → β) :
    ∀ (l : List α) (acc : List β),
      l.foldl (fun acc x => acc ++ [f x]) acc = acc ++ l.map f := by
  intro l
  induction l with
  | nil => intro acc; simp
  | cons x xs ih => intro acc; simp [ih, List.append_assoc]

/-! Spec-side definitions for the Input Reader claim: the row filter and the
record constructor, written from the spec's words (trim both cells, keep the
row only if both are non-empty and neither equals, case-insensitively, the
sentinel "not found in itsm"). -/

/-- The sentinel marker, as the spec spells it. -/
def sentinel : String := "not found in itsm"

/-- Row filter from the spec's words. -/
def specKeep (row : Row) : Bool :=
  let i := pyStrip (rowGet row "ID")
  let sn := pyStrip (rowGet row "Serial Number")
  !(i == "") && !(sn == "")
    && !(pyUpper i == pyUpper sentinel) && !(pyUpper sn == pyUpper sentinel)

/-- Record constructor from the spec's words. -/
def specRecord (row : Row) : AssetRecord :=
  ⟨pyStrip (rowGet row "ID"), pyStrip (rowGet row "Serial Number")⟩

theorem sentinel_upper : pyUpper sentinel = "NOT FOUND IN ITSM" := by decide

/-- The spec's three-row example input. -/
def exampleRows : List Row :=
  [[("ID", "1"), ("Serial Number", "ABC")],
   [("ID", "2"), ("Serial Number", "NOT FOUND IN ITSM")],
   [("ID", ""), ("Serial Number", "XYZ")]]

/-- C2: on every successfully parsed input, `read_ids_from_csv` returns
exactly the records built from the rows whose trimmed `ID` and trimmed
`Serial Number` are both non-empty and neither equals the sentinel
"not found in itsm" case-insensitively, in file order; and on the spec's
three-row example it returns exactly `[{ID := "1", SerialNumber := "ABC"}]`. -/
theorem read_ids_from_csv_filters_rows :
    (∀ rows : List Row,
      read_ids_from_csv (Except.ok rows) = (rows.filter specKeep).map specRecord)
    ∧ read_ids_from_csv (Except.ok exampleRows)
        = [{ ID := "1", SerialNumber := "ABC" }] := by
  constructor
  · intro rows
    have hfun : (fun (acc : List AssetRecord) (row : Row) =>
          let asset_id := pyStrip (rowGet row "ID")
          let serial_number := pyStrip (rowGet row "Serial Number")
          if !(asset_id == "") && !(serial_number == "")
              && !(pyUpper asset_id == "NOT FOUND IN ITSM")
              && !(pyUpper serial_number == "NOT FOUND IN ITSM") then
            acc ++ [⟨asset_id, serial_number⟩]
          else acc)
        = (fun acc row => if specKeep row then acc ++ [specRecord row] else acc) := by
      funext acc row
      simp only [specKeep, specRecord, sentinel_upper]
    show rows.foldl _ [] = _
    rw [hfun, foldl_append_if_eq, List.nil_append]
  · decide

/-- C8: the Input Reader converts every failure of opening or parsing the
file (`FileNotFoundError` as well as any other exception) to the empty
result; in the embedding no error value escapes — the function is total and
returns a plain list. -/
theorem read_ids_from_csv_error_empty :
    ∀ err : CsvError, read_ids_from_csv (Except.error err) = [] := by
  intro err
  rfl

/-- The `patch_document` loop builds exactly the map over the payload's keys. -/
theorem patch_document_eq_map (d : PyDict) :
    patch_document d = d.map (fun kv => ⟨"replace", "/" ++ kv.1, kv.2⟩) := by
  show d.foldl _ [] = _
  rw [foldl_append_eq_map, List.nil_append]

/-- C6: for every status payload, the update request built by
`update_asset_status` targets `{API_BASE_URL}/{app_id}/assets/{asset_id}`,
carries the header `Authorization: Bearer <token>`, and its body is a
JSON-Patch array with exactly one `{op := "replace", path := "/<key>",
value := <value>}` object per top-level key of the payload, in order. -/
theorem update_asset_status_request_spec :
    ∀ (api_base_url app_id asset_id token : String) (d : PyDict),
      (update_asset_status_request api_base_url app_id asset_id token d).url
          = api_base_url ++ "/" ++ app_id ++ "/assets/" ++ asset_id
      ∧ (update_asset_status_request api_base_url app_id asset_id token d).authorization
          = "Bearer " ++ token
      ∧ (update_asset_status_request api_base_url app_id asset_id token d).body.length
          = d.length
      ∧ ∀ j : Nat,
          (update_asset_status_request api_base_url app_id asset_id token d).body.get? j
            = (d.get? j).map (fun kv => ⟨"replace", "/" ++ kv.1, kv.2⟩) := by
  intro api_base_url app_id asset_id token d
  refine ⟨rfl, rfl, ?_, ?_⟩
  · simp [update_asset_status_request, patch_document_eq_map]
  · intro j
    simp [update_asset_status_request, patch_document_eq_map, List.get?_eq_getElem?, List.getElem?_map]

/-- One leading/trailing pair of quote characters removed, and no more: the
reading of the claim's words (the spec's "strip exactly one leading/trailing
quote pair"), stated for comparison with the source's `strip('"')`. -/
def stripOneQuotePair (s : String) : String :=
  let cs := s.toList
  if 2 ≤ cs.length && cs.head? == some '"' && cs.getLast? == some '"' then
    ⟨(cs.drop 1).dropLast⟩
  else s

/-- C3 counterexample: on the response body `""t""` the code's token is `t`
(all four quote characters stripped), while removing exactly one
leading/trailing quote pair would give `"t"`; the two differ, so the claim as
stated is false. -/
theorem get_bearer_token_strips_all_quotes_counterexample :
    get_bearer_token (AuthResponse.success "\"\"t\"\"") = Except.ok (some "t")
    ∧ stripOneQuotePair "\"\"t\"\"" = "\"t\""
    ∧ ("t" : String) ≠ "\"t\"" := by
  refine ⟨rfl, by decide, by decide⟩

/-- Quote runs: every character of `takeWhile isQuote` is a quote. -/
theorem takeWhile_all_isQuote (l : List Char) :
    (l.takeWhile isQuote).all isQuote = true := by
  induction l with
  | nil => rfl
  | cons c cs ih =>
    by_cases h : isQuote c
    · simp [List.takeWhile_cons, h, ih]
    · simp [List.takeWhile_cons, h]

/-- The head of `dropWhile p` never satisfies `p`. -/
theorem head?_dropWhile_not {p : Char → Bool} :
    ∀ (l : List Char) (c : Char), (l.dropWhile p).head? = some c → p c = false := by
  intro l
  induction l with
  | nil => intro c h; simp at h
  | cons x xs ih =>
    intro c h
    by_cases hx : p x
    · exact ih c (by simpa [List.dropWhile_cons, hx] using h)
    · simp [List.dropWhile_cons, hx] at h
      simp [← h, hx]

/-- Dropping leading runs from both ends decomposes the list: what is dropped
from the front is `takeWhile`, and the remainder splits off a reversed
`takeWhile` of the reversed list at the back. -/
theorem dropWhile_eq_strip_append (p : Char → Bool) (l : List Char) :
    l.dropWhile p
      = ((l.dropWhile p).reverse.dropWhile p).reverse
        ++ ((l.dropWhile p).reverse.takeWhile p).reverse := by
  have h2 : (l.dropWhile p).reverse
      = (l.dropWhile p).reverse.takeWhile p ++ (l.dropWhile p).reverse.dropWhile p :=
    (List.takeWhile_append_dropWhile ..).symm
  calc l.dropWhile p
      = (l.dropWhile p).reverse.reverse := (List.reverse_reverse _).symm
    _ = ((l.dropWhile p).reverse.takeWhile p
          ++ (l.dropWhile p).reverse.dropWhile p).reverse := by rw [← h2]
    _ = _ := by rw [List.reverse_append]

/-- Decomposition of a list around its both-ends strip: a run satisfying `p`,
the stripped core, and another run satisfying `p`. -/
theorem stripEnds_decomp (p : Char → Bool) (l : List Char) :
    ∃ a b : List Char,
      l = a ++ ((l.dropWhile p).reverse.dropWhile p).reverse ++ b
      ∧ a.all p = true ∧ b.all p = true := by
  refine ⟨l.takeWhile p, ((l.dropWhile p).reverse.takeWhile p).reverse, ?_, ?_, ?_⟩
  · calc l = l.takeWhile p ++ l.dropWhile p := (List.takeWhile_append_dropWhile ..).symm
      _ = l.takeWhile p ++ (((l.dropWhile p).reverse.dropWhile p).reverse
            ++ ((l.dropWhile p).reverse.takeWhile p).reverse) := by
            rw [← dropWhile_eq_strip_append]
      _ = _ := (List.append_assoc ..).symm
  · induction l with
    | nil => rfl
    | cons c cs ih =>
      by_cases h : p c
      · simp [List.takeWhile_cons, h, ih]
      · simp [List.takeWhile_cons, h]
  · rw [List.all_reverse]
    induction (l.dropWhile p).reverse with
    | nil => rfl
    | cons c cs ih =>
      by_cases h : p c
      · simp [List.takeWhile_cons, h, ih]
      · simp [List.takeWhile_cons, h]

/-- The head of the both-ends strip does not satisfy `p`. -/
theorem stripEnds_head_not (p : Char → Bool) (l : List Char) (c : Char)
    (hc : (((l.dropWhile p).reverse.dropWhile p).reverse).head? = some c) :
    p c = false := by
  rcases hs : ((l.dropWhile p).reverse.dropWhile p).reverse with _ | ⟨x, xs⟩
  · rw [hs] at hc; simp at hc
  · have hx : x = c := by rw [hs] at hc; simpa using hc
    have hm := dropWhile_eq_strip_append p l
    rw [hs] at hm
    have : (l.dropWhile p).head? = some x := by rw [hm]; simp
    rw [hx] at this
    exact head?_dropWhile_not _ _ this

/-- C3 amended: on HTTP success the token is the raw response body with ALL
leading and ALL trailing quote characters removed — the body decomposes as a
(possibly empty) run of quotes, then the token, then a run of quotes, and the
token itself neither starts nor ends with a quote character. -/
theorem get_bearer_token_strips_all_quotes :
    ∀ body : String,
      get_bearer_token (AuthResponse.success body)
          = Except.ok (some (stripQuotes body))
      ∧ (∃ a b : List Char,
            body.toList = a ++ (stripQuotes body).toList ++ b
            ∧ a.all isQuote = true ∧ b.all isQuote = true)
      ∧ (∀ c : Char, (stripQuotes body).toList.head? = some c → isQuote c = false)
      ∧ (∀ c : Char, (stripQuotes body).toList.getLast? = some c → isQuote c = false) := by
  intro body
  have hdata : (stripQuotes body).toList
      = ((body.toList.dropWhile isQuote).reverse.dropWhile isQuote).reverse := rfl
  refine ⟨rfl, ?_, ?_, ?_⟩
  · rw [hdata]; exact stripEnds_decomp isQuote body.toList
  · intro c hc
    rw [hdata] at hc
    exact stripEnds_head_not isQuote body.toList c hc
  · intro c hc
    rw [hdata, List.getLast?_reverse] at hc
    exact head?_dropWhile_not _ _ hc

/-- C3 amended witness: the theorem instantiated at the body `""t""`. -/
theorem get_bearer_token_strips_all_quotes_witness :
    get_bearer_token (AuthResponse.success "\"\"t\"\"")
        = Except.ok (some (stripQuotes "\"\"t\"\""))
    ∧ isQuote 't' = false :=
  ⟨(get_bearer_token_strips_all_quotes "\"\"t\"\"").1,
    (get_bearer_token_strips_all_quotes "\"\"t\"\"").2.2.1 't' (by decide)⟩

/-- C4: a network error raised by `requests.post` inside `get_bearer_token`
is not caught — the only handler is `except requests.HTTPError` — so it
escapes to the caller instead of being converted to the `None` failure
signal the spec describes. -/
theorem get_bearer_token_network_error_escapes :
    get_bearer_token AuthResponse.networkError = Except.error ReqError.networkError
    ∧ get_bearer_token AuthResponse.networkError ≠ Except.ok none := by
  refine ⟨rfl, ?_⟩
  intro h
  exact Except.noConfusion h

/-- The two per-asset HTTP call kinds, with the asset they target and the
outcome of the call. -/
inductive CallTag where
  | upd (assetId : String) (ok : Bool) : CallTag
  | fed (assetId : String) (ok : Bool) : CallTag
deriving Repr, DecidableEq

/-- Project an event to the HTTP call it performs, if any. -/
def callTag : Event → Option CallTag
  | .update assetId _ ok => some (.upd assetId ok)
  | .feed assetId _ ok => some (.fed assetId ok)
  | _ => none

/-- Modelled from the spec's words (the invariant in section 3 and transition
rules 1-5): per asset record, in input order, one update call; the feed call
follows only when that asset's update succeeded; a failed update skips only
that asset's feed call and the next record is still processed. -/
def specCalls (updOk feedOk : Nat → Bool) : List AssetRecord → Nat → List CallTag
  | [], _ => []
  | a :: rest, i =>
    CallTag.upd a.ID (updOk i)
      :: ((if updOk i then [CallTag.fed a.ID (feedOk i)] else [])
          ++ specCalls updOk feedOk rest (i + 1))

/-- C1: the HTTP calls of the per-asset loop are exactly `specCalls`: every
asset gets an update call (so a failure for one asset never stops the others),
and the feed/comment call for an asset is attempted exactly when that asset's
status-update call succeeded. -/
theorem mainLoop_calls_spec :
    ∀ (updOk feedOk : Nat → Bool) (tmplAddr : Nat) (comment : PyDict)
      (assets : List AssetRecord) (i total : Nat) (h : Heap),
      ((mainLoop updOk feedOk tmplAddr comment assets i total h).1).filterMap callTag
        = specCalls updOk feedOk assets i := by
  intro updOk feedOk tmplAddr comment assets
  induction assets with
  | nil => intro i total h; rfl
  | cons a rest ih =>
    intro i total h
    simp only [mainLoop, specCalls, List.filterMap_cons, List.filterMap_append]
    by_cases hu : updOk i
    · simp [hu, callTag, ih]
    · simp [hu, callTag, ih]

/-- C7: when the authentication POST returns any HTTP error (non-2xx),
`main` exits after the auth step, so the whole run performs zero
status-update and zero feed/comment HTTP calls. -/
theorem auth_failure_no_calls :
    ∀ (w : World) (c : Nat), w.authResp = AuthResponse.httpError c →
      (mainTrace w).filterMap callTag = [] := by
  intro w c h
  unfold mainTrace
  rw [h]
  by_cases he : envOk w.env
  · simp [he, get_bearer_token, authAttempt, callTag]
  · simp [he, callTag]

/-- All-truthy environment for the concrete runs below. -/
def envW : Env := ⟨some "app", some "auth-url", some "api", some "user", some "pw"⟩

/-- A run input on which every step succeeds. -/
def wOk : World :=
  { env := envW
    authResp := .success "\"tok\""
    csv := .ok exampleRows
    statusJson := some [("assetStatus", Json.str "Disposed")]
    commentJson := some [("text", Json.str "disposed")]
    updOk := fun _ => true
    feedOk := fun _ => true }

/-- The same run input with the auth endpoint answering HTTP 500. -/
def wAuthFail : World := { wOk with authResp := .httpError 500 }

/-- C7 witness: the theorem applied to the concrete run whose auth call
returns HTTP 500. -/
theorem auth_failure_no_calls_witness :
    (mainTrace wAuthFail).filterMap callTag = [] :=
  auth_failure_no_calls wAuthFail 500 rfl

/-- Recognize the authentication POST event. -/
def isAuthEvent : Event → Bool
  | .authCall => true
  | _ => false

/-- Recognize the CSV-read event. -/
def isReadCsvEvent : Event → Bool
  | .readCsv => true
  | _ => false

/-- C9 counterexample: in the concrete successful run `wOk`, the
authentication call is the first top-level step (index 0) and the input list
is read strictly after it (index 1) — the reverse of the claimed
read-then-authenticate order. -/
theorem auth_precedes_read_counterexample :
    (mainTrace wOk).findIdx? isAuthEvent = some 0
    ∧ (mainTrace wOk).findIdx? isReadCsvEvent = some 1 :=
  ⟨rfl, rfl⟩

/-- Events that are top-level steps or per-asset HTTP calls (auth, CSV read,
update, feed). -/
def isTopEvent : Event → Bool
  | .authCall => true
  | .readCsv => true
  | .update _ _ _ => true
  | .feed _ _ _ => true
  | _ => false

/-- Shape of the top-level step sequence from the spec's words, with the
actual order of the code: authenticate first, then read the input list, then
only per-asset calls. -/
def orderedTop : List Event → Bool
  | [] => true
  | Event.authCall :: rest =>
    (match rest with
     | [] => true
     | Event.readCsv :: calls => calls.all (fun e => (callTag e).isSome)
     | _ => false)
  | _ => false

/-- Every loop event that is a top-level step is one of the two HTTP calls. -/
theorem mainLoop_top_calls :
    ∀ (updOk feedOk : Nat → Bool) (tmplAddr : Nat) (comment : PyDict)
      (assets : List AssetRecord) (i total : Nat) (h : Heap) (e : Event),
      e ∈ (mainLoop updOk feedOk tmplAddr comment assets i total h).1 →
      isTopEvent e = false ∨ (callTag e).isSome = true := by
  intro updOk feedOk tmplAddr comment assets
  induction assets with
  | nil =>
    intro i total h e he
    simp [mainLoop] at he
  | cons a rest ih =>
    intro i total h e he
    simp only [mainLoop] at he
    rcases List.mem_cons.mp he with rfl | he2
    · right; rfl
    rcases List.mem_append.mp he2 with h3 | hrec
    · rcases List.mem_append.mp h3 with hm | htl
      · by_cases hu : updOk i
        · rw [if_pos hu] at hm
          rcases List.mem_cons.mp hm with rfl | hm2
          · left; rfl
          · rcases List.mem_cons.mp hm2 with rfl | hm3
            · right; rfl
            · exact absurd hm3 (List.not_mem_nil e)
        · rw [if_neg hu] at hm
          exact absurd hm (List.not_mem_nil e)
      · by_cases htt : i < total
        · rw [if_pos htt] at htl
          rcases List.mem_cons.mp htl with rfl | htl2
          · left; rfl
          · exact absurd htl2 (List.not_mem_nil e)
        · rw [if_neg htt] at htl
          exact absurd htl (List.not_mem_nil e)
    · exact ih _ _ _ e hrec

/-- C9 amended: in every run the script authenticates first, then reads the
input list, then iterates — the top-level steps of the trace are an auth call,
then the CSV read, then only per-asset update/feed calls (each possibly absent
when an earlier step aborts the run). -/
theorem auth_then_read_then_loop :
    ∀ w : World, orderedTop ((mainTrace w).filter isTopEvent) = true := by
  intro w
  unfold mainTrace
  by_cases he : envOk w.env
  · rcases hgt : get_bearer_token w.authResp with e | t
    · simp [he, hgt, isTopEvent, orderedTop]
    · rcases t with _ | tok
      · simp [he, hgt, isTopEvent, orderedTop]
      · by_cases htk : (tok == "") = true
        · simp [he, hgt, htk, isTopEvent, orderedTop]
        · by_cases hassets : (read_ids_from_csv w.csv).isEmpty
          · simp [he, hgt, htk, hassets, isTopEvent, orderedTop]
          · by_cases hfal : (falsyPayload w.statusJson || falsyPayload w.commentJson) = true
            · simp [he, hgt, htk, hassets, hfal, isTopEvent, orderedTop]
            · simp [he, hgt, htk, hassets, hfal, isTopEvent, orderedTop]
              exact fun x hx => mainLoop_top_calls _ _ _ _ _ _ _ _ x hx
  · simp [he, isTopEvent, orderedTop]

/-- C10: if either template file loads as the empty mapping, the run logs the
same fatal message and exits exactly as when the load failed (`None`): the
trace is auth, CSV read, the two JSON reads, then the fatal exit — no
per-asset update or comment call is ever issued, and the trace coincides with
the trace of the run whose template loads failed outright. -/
theorem empty_template_fatal :
    ∀ (w : World) (b : String) (a : AssetRecord) (rest : List AssetRecord),
      envOk w.env = true →
      w.authResp = AuthResponse.success b →
      stripQuotes b ≠ "" →
      read_ids_from_csv w.csv = a :: rest →
      (w.statusJson = some [] ∨ w.commentJson = some []) →
      mainTrace w = [Event.authCall, Event.readCsv, Event.readStatusJson,
        Event.readCommentJson, Event.fatal "json"]
      ∧ mainTrace w
          = mainTrace { w with statusJson := none, commentJson := none } := by
  intro w b a rest he ha ht hc hp
  have htk : (stripQuotes b == "") = false := by
    simpa using ht
  have hfal : (falsyPayload w.statusJson || falsyPayload w.commentJson) = true := by
    rcases hp with h | h <;> simp [h, falsyPayload]
  have h1 : mainTrace w = [Event.authCall, Event.readCsv, Event.readStatusJson,
      Event.readCommentJson, Event.fatal "json"] := by
    unfold mainTrace
    rw [ha]
    simp [he, get_bearer_token, authAttempt, htk, hc, hfal]
  have h2 : mainTrace { w with statusJson := none, commentJson := none }
      = [Event.authCall, Event.readCsv, Event.readStatusJson,
        Event.readCommentJson, Event.fatal "json"] := by
    unfold mainTrace
    rw [show ({ w with statusJson := none, commentJson := none } : World).authResp
        = AuthResponse.success b from ha]
    simp [he, get_bearer_token, authAttempt, htk, hc, falsyPayload]
  exact ⟨h1, h1.trans h2.symm⟩

/-- The successful run input with the status template loaded as `{}`. -/
def wEmptyTmpl : World := { wOk with statusJson := some [] }

/-- C10 witness: the theorem applied to the concrete run whose status
template is the empty mapping. -/
theorem empty_template_fatal_witness :
    mainTrace wEmptyTmpl = [Event.authCall, Event.readCsv, Event.readStatusJson,
      Event.readCommentJson, Event.fatal "json"]
    ∧ mainTrace wEmptyTmpl
        = mainTrace { wEmptyTmpl with statusJson := none, commentJson := none } :=
  empty_template_fatal wEmptyTmpl "\"tok\"" ⟨"1", "ABC"⟩ [] (by decide) rfl
    (by decide) (by decide) (Or.inl rfl)

/-- Setting a key on the object at address `b` does not change what `find?`
returns for a different address `a`. -/
theorem find?_setEntry_ne (a b : Nat) (k : String) (v : Json) (hab : a ≠ b) :
    ∀ objs : List (Nat × PyDict),
      (objs.map (fun p => if p.1 == b then (p.1, dictSet p.2 k v) else p)).find?
          (fun p => p.1 == a)
        = objs.find? (fun p => p.1 == a) := by
  intro objs
  rw [List.find?_map]
  have hcomp : ((fun q : Nat × PyDict => q.1 == a)
        ∘ (fun p => if p.1 == b then (p.1, dictSet p.2 k v) else p))
      = fun q : Nat × PyDict => q.1 == a := by
    funext q
    by_cases hqb : (q.1 == b) = true
    · simp [Function.comp, hqb]
    · simp [Function.comp, hqb]
  rw [hcomp]
  rcases hf : objs.find? (fun q : Nat × PyDict => q.1 == a) with _ | q
  · rfl
  · have hqa : (q.1 == a) = true :=
      @List.find?_some _ (fun q : Nat × PyDict => q.1 == a) q objs hf
    have hqb : (q.1 == b) = false := by
      rw [eq_of_beq hqa]
      exact beq_eq_false_iff_ne.mpr hab
    simp only [Option.map_some']
    rw [if_neg (by simp [hqb])]

/-- Setting a key on the object at address `b` maps the entry `find?` returns
for `b` through `dictSet`. -/
theorem find?_setEntry_self (b : Nat) (k : String) (v : Json) :
    ∀ objs : List (Nat × PyDict),
      (objs.map (fun p => if p.1 == b then (p.1, dictSet p.2 k v) else p)).find?
          (fun p => p.1 == b)
        = (objs.find? (fun p => p.1 == b)).map
            (fun p => (p.1, dictSet p.2 k v)) := by
  intro objs
  rw [List.find?_map]
  have hcomp : ((fun q : Nat × PyDict => q.1 == b)
        ∘ (fun p => if p.1 == b then (p.1, dictSet p.2 k v) else p))
      = fun q : Nat × PyDict => q.1 == b := by
    funext q
    by_cases hqb : (q.1 == b) = true
    · simp [Function.comp, hqb]
    · simp [Function.comp, hqb]
  rw [hcomp]
  rcases hf : objs.find? (fun q : Nat × PyDict => q.1 == b) with _ | q
  · rfl
  · have hqb : (q.1 == b) = true :=
      @List.find?_some _ (fun q : Nat × PyDict => q.1 == b) q objs hf
    simp only [Option.map_some']
    rw [if_pos hqb]

/-- Lookup at an address other than the freshly allocated one is unchanged. -/
theorem Heap.lookup_alloc_ne (h : Heap) (d : PyDict) (a : Nat) (ha : a ≠ h.next) :
    (h.alloc d).2.lookup a = h.lookup a := by
  simp only [Heap.alloc, Heap.lookup, List.find?,
    show (h.next == a) = false from beq_eq_false_iff_ne.mpr (Ne.symm ha)]

/-- Lookup at the freshly allocated address yields the allocated dict. -/
theorem Heap.lookup_alloc_self (h : Heap) (d : PyDict) :
    (h.alloc d).2.lookup h.next = some d := by
  simp [Heap.alloc, Heap.lookup, List.find?]

/-- Mutating the object at `b` leaves lookups at other addresses unchanged. -/
theorem Heap.lookup_set_ne (h : Heap) (a b : Nat) (k : String) (v : Json)
    (hab : a ≠ b) : (h.set b k v).lookup a = h.lookup a := by
  simp only [Heap.set, Heap.lookup]
  rw [find?_setEntry_ne a b k v hab]

/-- Mutating the object at `b` updates the lookup at `b` through `dictSet`. -/
theorem Heap.lookup_set_self (h : Heap) (b : Nat) (k : String) (v : Json) :
    (h.set b k v).lookup b = (h.lookup b).map (fun d => dictSet d k v) := by
  simp only [Heap.set, Heap.lookup]
  rw [find?_setEntry_self b k v]
  cases h.objs.find? (fun p => p.1 == b) <;> rfl

/-- Allocation preserves heap well-formedness. -/
theorem Heap.wfB_alloc (h : Heap) (d : PyDict) (hw : h.wfB = true) :
    (h.alloc d).2.wfB = true := by
  simp only [Heap.wfB, Heap.alloc, List.all_cons, List.all_eq_true,
    decide_eq_true_eq, Bool.and_eq_true] at hw ⊢
  exact ⟨Nat.lt_succ_self _, fun p hp => Nat.lt_succ_of_lt (hw p hp)⟩

/-- Mutating an object preserves heap well-formedness (addresses unchanged). -/
theorem Heap.wfB_set (h : Heap) (b : Nat) (k : String) (v : Json)
    (hw : h.wfB = true) : (h.set b k v).wfB = true := by
  simp only [Heap.wfB, Heap.set, List.all_eq_true, decide_eq_true_eq] at hw ⊢
  intro p hp
  obtain ⟨q, hq, hfq⟩ := List.mem_map.mp hp
  have hkey : p.1 = q.1 := by
    by_cases hqb : (q.1 == b) = true
    · rw [if_pos hqb] at hfq; rw [← hfq]
    · rw [if_neg hqb] at hfq; rw [← hfq]
  rw [hkey]
  exact hw q hq

/-- C5: running the per-asset loop from any well-formed heap never changes
the status-update template object: the lookup at the template's address is
the same after processing any list of assets, and every PATCH payload the
loop issues is the template's contents with only the `serialNumber` field
inserted/overwritten (the `deepcopy` clone is a fresh address, so no clone
aliases the template). -/
theorem mainLoop_preserves_template :
    ∀ (updOk feedOk : Nat → Bool) (tmplAddr : Nat) (comment : PyDict)
      (assets : List AssetRecord) (i total : Nat) (h : Heap),
      h.wfB = true → tmplAddr < h.next →
      ((mainLoop updOk feedOk tmplAddr comment assets i total h).2).lookup tmplAddr
          = h.lookup tmplAddr
      ∧ ∀ (assetId : String) (p : PyDict) (ok : Bool),
          Event.update assetId p ok
              ∈ (mainLoop updOk feedOk tmplAddr comment assets i total h).1 →
          ∃ sn : String,
            p = dictSet ((h.lookup tmplAddr).getD []) "serialNumber" (Json.str sn) := by
  intro updOk feedOk tmplAddr comment assets
  induction assets with
  | nil =>
    intro i total h hw hlt
    refine ⟨rfl, ?_⟩
    intro assetId p ok hmem
    simp [mainLoop] at hmem
  | cons a rest ih =>
    intro i total h hw hlt
    have hne : tmplAddr ≠ h.next := Nat.ne_of_lt hlt
    have hca : (h.alloc ((h.lookup tmplAddr).getD [])).1 = h.next := rfl
    have hw2 : (((h.alloc ((h.lookup tmplAddr).getD [])).2).set
        (h.alloc ((h.lookup tmplAddr).getD [])).1 "serialNumber"
        (Json.str a.SerialNumber)).wfB = true :=
      Heap.wfB_set _ _ _ _ (Heap.wfB_alloc h _ hw)
    have hlt2 : tmplAddr < (((h.alloc ((h.lookup tmplAddr).getD [])).2).set
        (h.alloc ((h.lookup tmplAddr).getD [])).1 "serialNumber"
        (Json.str a.SerialNumber)).next := Nat.lt_succ_of_lt hlt
    have hpres : ((((h.alloc ((h.lookup tmplAddr).getD [])).2).set
        (h.alloc ((h.lookup tmplAddr).getD [])).1 "serialNumber"
        (Json.str a.SerialNumber)).lookup tmplAddr) = h.lookup tmplAddr := by
      rw [hca, Heap.lookup_set_ne _ _ _ _ _ hne]
      exact Heap.lookup_alloc_ne h _ _ hne
    have hpayload : ((((h.alloc ((h.lookup tmplAddr).getD [])).2).set
        (h.alloc ((h.lookup tmplAddr).getD [])).1 "serialNumber"
        (Json.str a.SerialNumber)).lookup (h.alloc ((h.lookup tmplAddr).getD [])).1)
        = some (dictSet ((h.lookup tmplAddr).getD []) "serialNumber"
            (Json.str a.SerialNumber)) := by
      rw [hca, Heap.lookup_set_self, Heap.lookup_alloc_self]
      rfl
    obtain ⟨ihpres, ihpay⟩ := ih (i + 1) total _ hw2 hlt2
    constructor
    · simp only [mainLoop]
      rw [ihpres, hpres]
    · intro assetId p ok hmem
      simp only [mainLoop] at hmem
      rcases List.mem_cons.mp hmem with heq | hmem2
      · refine ⟨a.SerialNumber, ?_⟩
        have h2 : p = (((((h.alloc ((h.lookup tmplAddr).getD [])).2).set
            (h.alloc ((h.lookup tmplAddr).getD [])).1 "serialNumber"
            (Json.str a.SerialNumber)).lookup
              (h.alloc ((h.lookup tmplAddr).getD [])).1).getD []) := by
          injection heq with e1 e2 e3
        rw [h2, hpayload]
        rfl
      rcases List.mem_append.mp hmem2 with h3 | hrec
      · rcases List.mem_append.mp h3 with hm | htl
        · by_cases hu : updOk i
          · rw [if_pos hu] at hm
            rcases List.mem_cons.mp hm with heq | hm2
            · exact Event.noConfusion heq
            · rcases List.mem_cons.mp hm2 with heq | hm3
              · exact Event.noConfusion heq
              · exact absurd hm3 (List.not_mem_nil _)
          · rw [if_neg hu] at hm
            exact absurd hm (List.not_mem_nil _)
        · by_cases htt : i < total
          · rw [if_pos htt] at htl
            rcases List.mem_cons.mp htl with heq | htl2
            · exact Event.noConfusion heq
            · exact absurd htl2 (List.not_mem_nil _)
          · rw [if_neg htt] at htl
            exact absurd htl (List.not_mem_nil _)
      · obtain ⟨sn, hsn⟩ := ihpay assetId p ok hrec
        rw [hpres] at hsn
        exact ⟨sn, hsn⟩

/-- An always-succeeding call outcome oracle. -/
def allTrue : Nat → Bool := fun _ => true

/-- A concrete status-update template. -/
def tmplW : PyDict := [("assetStatus", Json.str "Disposed")]

/-- A concrete heap holding only the template, at address 0. -/
def hW : Heap := ⟨[(0, tmplW)], 1⟩

/-- Two assets with different serial numbers, as the spec's test demands. -/
def assetsW : List AssetRecord := [⟨"1", "A"⟩, ⟨"2", "B"⟩]

/-- C5 witness: the theorem applied to a concrete well-formed heap and two
assets with different serial numbers; the template lookup is unchanged and
the first PATCH payload is the template with `serialNumber` set. -/
theorem mainLoop_preserves_template_witness :
    ((mainLoop allTrue allTrue 0 [] assetsW 1 2 hW).2).lookup 0 = hW.lookup 0
    ∧ ∃ sn : String,
        [("assetStatus", Json.str "Disposed"), ("serialNumber", Json.str "A")]
          = dictSet ((hW.lookup 0).getD []) "serialNumber" (Json.str sn) :=
  ⟨(mainLoop_preserves_template allTrue allTrue 0 [] assetsW 1 2 hW
      (by decide) (by decide)).1,
    (mainLoop_preserves_template allTrue allTrue 0 [] assetsW 1 2 hW
      (by decide) (by decide)).2 "1"
      [("assetStatus", Json.str "Disposed"), ("serialNumber", Json.str "A")]
      true (List.Mem.head _)⟩
